import Mathlib

/-!
Verification of the Connections puzzle game logic (game.js): puzzle
normalization, the session state machine (selection, guess evaluation,
mistake tracking, reveal-on-failure), the persisted-snapshot restore
path, and the static puzzle catalog.  JavaScript strings are modelled
as Lean `String`; `String.prototype.toUpperCase` is modelled by Lean's
`String.toUpper` (ASCII uppercasing; every non-ASCII character in the
catalog is already uppercase, where both functions are the identity).
JavaScript `undefined` (from out-of-range array reads) is modelled as
`Option.none`.  `Math.random`-driven shuffling is modelled by an
explicit list of sort keys quantified over all possible outcomes.
-/

namespace Connections

/-- Model of `COLOR_MAP` (game.js line 2): difficulty tag to hex value.
Object lookup yields `none` for a missing key (JS `undefined`). -/
def COLOR_MAP (c : String) : Option String :=
  if c = "purple" then some "#9c27b0"
  else if c = "blue" then some "#4da3ff"
  else if c = "green" then some "#4caf50"
  else if c = "yellow" then some "#ffca28"
  else none

/-- Model of `COLOR_REVERSE` (game.js line 4): hex value back to tag. -/
def COLOR_REVERSE (c : String) : Option String :=
  if c = "#9c27b0" then some "purple"
  else if c = "#4da3ff" then some "blue"
  else if c = "#4caf50" then some "green"
  else if c = "#ffca28" then some "yellow"
  else none

/-- JavaScript `a || b` where `a` is a possibly-missing string property:
`undefined` and the empty string are falsy. -/
def jsOr (a : Option String) (b : String) : String :=
  match a with
  | some s => if s = "" then b else s
  | none => b

/-- A puzzle group object: `{category, color, words}`, plus the
`colorName` property that `normalizePuzzle` adds (absent = `none`). -/
structure Group where
  category : String
  color : String
  words : List String
  colorName : Option String := none
deriving Repr, DecidableEq

/-- A puzzle object of the authoring shape `{id, groups}`. -/
structure Puzzle where
  id : String
  groups : List Group
deriving Repr, DecidableEq

/-- Model of `String.prototype.toUpperCase`: Lean core's
`String.toUpper` (it maps `Char.toUpper` over the characters), stated
on the underlying character list so that the kernel can evaluate it;
`jsToUpperCase_eq_toUpper` below proves the two agree. -/
def jsToUpperCase (s : String) : String :=
  String.mk (s.data.map Char.toUpper)

/-- Model of the per-group body of `normalizePuzzle` (game.js lines
516-521): uppercase the words, resolve `colorName` and `color` through
the two lookup tables. -/
def normalizeGroup (g : Group) : Group :=
  let originalColor := g.color
  { g with
    words := g.words.map jsToUpperCase
    colorName := some (match COLOR_MAP originalColor with
      | some _ => originalColor
      | none => jsOr (COLOR_REVERSE originalColor) originalColor)
    color := jsOr (COLOR_MAP originalColor) originalColor }

/-- Model of `normalizePuzzle` (game.js lines 515-523). -/
def normalizePuzzle (p : Puzzle) : Puzzle :=
  { p with groups := p.groups.map normalizeGroup }

/-! The session state machine. -/

/-- An entry of `state.mistakesLog`: `{ts, words}` (game.js line 392).
A word is `Option String` because `pool()[i]` is `undefined` for an
out-of-range index. -/
structure MistakeEntry where
  ts : Nat
  words : List (Option String)
deriving Repr, DecidableEq

/-- An entry of `state.guesses`: `{words, colors, correct}` (game.js
line 370). -/
structure GuessEntry where
  words : List (Option String)
  colors : List String
  correct : Bool
deriving Repr, DecidableEq

/-- Model of the mutable `state` object (game.js lines 52-63).  The
JS `Set` backing `selection` is modelled as an insertion-ordered
duplicate-free list. -/
structure SessionState where
  data : Puzzle
  id : String
  order : List Nat
  selection : List Nat
  found : List Group
  mistakes : Nat
  mistakesLog : List MistakeEntry
  guesses : List GuessEntry
  locked : Bool
  failed : Bool
deriving Repr, DecidableEq

/-- Model of `MAX_MISTAKES` (game.js line 66). -/
def MAX_MISTAKES : Nat := 4

/-- Model of `pool()` (game.js lines 227-229). -/
def pool (s : SessionState) : List String :=
  s.data.groups.flatMap (fun g => g.words)

/-- Stable insertion of an element into a list: the element lands
before the first entry it compares `le` to.  Together with `jsSort`
this models JavaScript `Array.prototype.sort`, which the language
specification requires to be a stable sort; for a total transitive
comparator the stable sorted output is unique, so insertion sort is
extensionally the same function. -/
def jsSortInsert (le : α → α → Bool) (a : α) : List α → List α
  | [] => [a]
  | b :: bs => if le a b then a :: b :: bs else b :: jsSortInsert le a bs

/-- Model of JavaScript `Array.prototype.sort` with comparator `le`
(stable insertion sort, see `jsSortInsert`). -/
def jsSort (le : α → α → Bool) : List α → List α
  | [] => []
  | a :: as => jsSortInsert le a (jsSort le as)

/-- Model of `shuffle` (game.js line 27): pair every element with a
random sort key, sort by key (numeric comparator `(a, b) => a[0] -
b[0]`), drop the keys.  `keys` is the outcome of the random source; an
index beyond `keys` reads key `0`. -/
def jsShuffle (keys : List Nat) (a : List α) : List α :=
  (jsSort (fun x y => decide (x.1 ≤ y.1))
    (a.enum.map (fun p => (keys.getD p.1 0, p.2)))).map (fun p => p.2)

/-- The words of all solved groups, `new Set(state.found.flatMap(g =>
g.words))` as used in `buildBoard` and `revealAllAndLock`. -/
def foundWordsOf (s : SessionState) : List String :=
  s.found.flatMap (fun g => g.words)

/-- The `activeIndices` computed in `buildBoard` (game.js lines
275-278): pool indices of the words not yet solved. -/
def activeIndices (s : SessionState) : List Nat :=
  (((pool s).enum.map (fun p => (p.2, p.1))).filter
    (fun q => !((foundWordsOf s).contains q.1))).map (fun q => q.2)

/-- The state mutation performed by `buildBoard` (game.js lines
236-296): when the session is not locked and `state.order` is out of
step with the active words, re-shuffle the active indices and clear
the selection.  All other work of `buildBoard` is DOM rendering. -/
def buildBoardSync (s : SessionState) (keys : List Nat) : SessionState :=
  if s.locked then s
  else if s.order.length
      ≠ ((pool s).filter (fun w => !((foundWordsOf s).contains w))).length then
    { s with order := jsShuffle keys (activeIndices s), selection := [] }
  else s

/-- Model of `toggle` (game.js lines 315-331).  `Set.delete` keeps the
insertion order of the remaining members; `Set.add` appends. -/
def toggle (s : SessionState) (i : Nat) : SessionState :=
  if s.locked then s
  else if s.selection.contains i then
    { s with selection := s.selection.filter (fun j => j != i) }
  else if s.selection.length ≥ 4 then s
  else { s with selection := s.selection ++ [i] }

/-- Model of `deselectAll` (game.js lines 434-441). -/
def deselectAll (s : SessionState) : SessionState :=
  if s.locked then s else { s with selection := [] }

/-- Model of `shuffleBoard` (game.js lines 447-454): re-shuffle
`state.order`, then `buildBoard` (whose only state effect is
`buildBoardSync`).  `k1` drives the shuffle, `k2` the (normally
unreachable) re-sync inside `buildBoard`. -/
def shuffleBoard (s : SessionState) (k1 k2 : List Nat) : SessionState :=
  if s.locked then s
  else buildBoardSync { s with order := jsShuffle k1 s.order } k2

/-- The group snapshot `{category, words: [...], color:
COLOR_MAP[color] || color}` pushed onto `state.found` (game.js lines
373-377 and 418-422). -/
def foundSnapshot (g : Group) : Group :=
  { category := g.category
    color := jsOr (COLOR_MAP g.color) g.color
    words := g.words
    colorName := none }

/-- Model of `revealAllAndLock` (game.js lines 414-428): append a
snapshot of every group whose words are not all solved, lock, clear
the selection.  The trailing `buildBoard` call mutates nothing because
the state is locked. -/
def revealAllAndLock (s : SessionState) : SessionState :=
  { s with
    found := s.found ++
      ((s.data.groups.filter
        (fun g => !(g.words.all (fun w => (foundWordsOf s).contains w)))).map
        foundSnapshot)
    locked := true
    selection := [] }

/-- The selected words `[...state.selection].map(i => pool()[i])`
(game.js line 348); an out-of-range index yields `undefined`. -/
def wordsOfSelection (s : SessionState) : List (Option String) :=
  s.selection.map (fun i => (pool s).get? i)

/-- Lexicographic less-or-equal on character lists, comparing scalar
values; executable model of the string comparison done by the default
`Array.prototype.sort` comparator. -/
def charListLe : List Char → List Char → Bool
  | [], _ => true
  | _ :: _, [] => false
  | a :: as, b :: bs =>
    if a.toNat < b.toNat then true
    else if b.toNat < a.toNat then false
    else charListLe as bs

/-- String comparison for `Array.prototype.sort`. -/
def jsStrLe (a b : String) : Bool := charListLe a.data b.data

/-- JS default `Array.prototype.sort` on the selected words:
`undefined` entries are moved to the end, the rest are sorted by
string comparison. -/
def jsSortWords (l : List (Option String)) : List (Option String) :=
  (jsSort jsStrLe (l.filterMap id)).map some ++
    List.replicate (l.count none) none

/-- Model of `Array.prototype.join(',')`: the elements separated by
single commas (an `undefined` element renders as the empty string, see
`jsSortJoin`). -/
def jsJoin (sep : String) : List String → String
  | [] => ""
  | [a] => a
  | a :: as => a ++ sep ++ jsJoin sep as

/-- The same join on raw character lists; proof support for reasoning
about `jsJoin` through `String.data`. -/
def charsJoin : List (List Char) → List Char
  | [] => []
  | [a] => a
  | a :: as => a ++ [','] ++ charsJoin as

/-- Model of `wordsSel.slice().sort().join(',')` (game.js line 351);
`join` renders `undefined` as the empty string. -/
def jsSortJoin (l : List (Option String)) : String :=
  jsJoin "," ((jsSortWords l).map (fun o => o.getD ""))

/-- The `match` computation of `submit` (game.js lines 360-362): the
first group all of whose words appear among the selected words. -/
def findMatch (groups : List Group) (wordsSel : List (Option String)) :
    Option Group :=
  groups.find? (fun g => g.words.all (fun w => wordsSel.contains (some w)))

/-- The per-word color tag recorded for the results view (game.js
lines 365-369): `group.colorName || COLOR_REVERSE[group.color] ||
'gray'`, or `'gray'` for a word owned by no group. -/
def guessColorOf (groups : List Group) (ow : Option String) : String :=
  match groups.find?
      (fun g => match ow with
        | some w => g.words.contains w
        | none => false) with
  | none => "gray"
  | some g => jsOr g.colorName (jsOr (COLOR_REVERSE g.color) "gray")

/-- The observable outcome of `submit`: which toast/branch was taken. -/
inductive SubmitResult where
  | finishedReject
  | needFourReject
  | alreadyTriedReject
  | correctMatch (solved : Bool)
  | incorrectGuess (oneAway : Bool) (failedNow : Bool)
deriving Repr, DecidableEq

/-- Model of `submit` (game.js lines 338-408).  `ts` models
`Date.now()`; `keys` drives the `buildBoard` re-sync in the match
branch (normally the identity). -/
def submit (s : SessionState) (ts : Nat) (keys : List Nat) :
    SessionState × SubmitResult :=
  if s.locked then (s, .finishedReject)
  else if s.selection.length ≠ 4 then (s, .needFourReject)
  else
    let wordsSel := wordsOfSelection s
    let sortedWords := jsSortJoin wordsSel
    if s.mistakesLog.any (fun e => jsSortJoin e.words == sortedWords) then
      (s, .alreadyTriedReject)
    else
      let mtch := findMatch s.data.groups wordsSel
      let guessColors := wordsSel.map (guessColorOf s.data.groups)
      let s1 := { s with guesses := s.guesses ++
        [({ words := wordsSel, colors := guessColors, correct := mtch.isSome } : GuessEntry)] }
      match mtch with
      | some mg =>
        let s2 := { s1 with found := s1.found ++ [foundSnapshot mg] }
        let ws := pool s2
        let s3 := { s2 with
          order := s2.order.filter (fun i =>
            match ws.get? i with
            | some w => !(mg.words.contains w)
            | none => true)
          selection := ([] : List Nat) }
        let solved := s3.found.length == 4
        let s4 := if solved then { s3 with locked := true, failed := false } else s3
        (buildBoardSync s4 keys, .correctMatch solved)
      | none =>
        let s2 := { s1 with
          mistakesLog := s1.mistakesLog ++ [({ ts := ts, words := wordsSel } : MistakeEntry)]
          mistakes := min MAX_MISTAKES (s1.mistakes + 1) }
        let oneAway := s2.data.groups.any (fun g =>
          (g.words.filter (fun w => wordsSel.contains (some w))).length == 3)
        if s2.mistakes ≥ MAX_MISTAKES then
          (revealAllAndLock ({ s2 with failed := true } : SessionState),
            .incorrectGuess oneAway true)
        else (s2, .incorrectGuess oneAway false)

/-- Model of `resetPuzzle` (game.js lines 549-563): reset every
session field to its default, then `buildBoard` (which re-shuffles the
board since `order` is now empty).  Clearing the persisted snapshot is
a persistence-boundary effect with no in-memory state change. -/
def resetPuzzle (s : SessionState) (keys : List Nat) : SessionState :=
  buildBoardSync
    { s with
      order := []
      selection := []
      found := []
      mistakes := 0
      mistakesLog := []
      guesses := []
      locked := false
      failed := false }
    keys

/-- Model of `loadPuzzle` (game.js lines 530-543) when no persisted
snapshot exists (`restoreIfAny` finds nothing): normalize the puzzle,
reset all fields to defaults, then `buildBoard` shuffles the board. -/
def loadPuzzle (json : Puzzle) (keys : List Nat) : SessionState :=
  buildBoardSync
    { data := normalizePuzzle json
      id := json.id
      order := []
      selection := []
      found := []
      mistakes := 0
      mistakesLog := []
      guesses := []
      locked := false
      failed := false }
    keys

/-- A player action fed to the session state machine, with the random
keys each action may consume. -/
inductive Op where
  | toggleSelect (i : Nat)
  | deselectAll
  | shuffleDisplayOrder (k1 k2 : List Nat)
  | submitGuess (ts : Nat) (keys : List Nat)
  | reset (keys : List Nat)
deriving Repr, DecidableEq

/-- Apply one player action to the session state. -/
def applyOp (s : SessionState) (op : Op) : SessionState :=
  match op with
  | .toggleSelect i => toggle s i
  | .deselectAll => deselectAll s
  | .shuffleDisplayOrder k1 k2 => shuffleBoard s k1 k2
  | .submitGuess ts keys => (submit s ts keys).1
  | .reset keys => resetPuzzle s keys

/-- Run a sequence of player actions. -/
def runOps (s : SessionState) (ops : List Op) : SessionState :=
  ops.foldl applyOp s

/-! The static puzzle catalog. -/

/-- Shorthand for building a catalog group. -/
def mkG (cat co : String) (ws : List String) : Group :=
  { category := cat, color := co, words := ws }

/-- Model of the embedded `SAMPLES` catalog (game.js lines 644-705),
transcribed verbatim. -/
def SAMPLES : List Puzzle := [
  { id := "Puzzle 1", groups := [
      mkG "FALSE FRIENDS (EN WORDS, FR MEANINGS)" "purple"
        ["LOCATION", "LECTURE", "SENSIBLE", "AGENDA"],
      mkG "FRENCH LOANWORDS IN ENGLISH" "blue" ["CAFÉ", "MENU", "CHEF", "DEPOT"],
      mkG "HOMOGRAPHS ACROSS LANGUAGES" "green" ["CHAT", "PAIN", "COIN", "GIFT"],
      mkG "INTERNATIONAL WORDS" "yellow" ["TAXI", "HOTEL", "RADIO", "PIANO"]] },
  { id := "Puzzle 2", groups := [
      mkG "HOMOPHONES OF NUMBERS" "yellow" ["WON", "TOO", "FOR", "ATE"],
      mkG "WORDS ENDING IN -OUGH" "green" ["THROUGH", "THOUGH", "ROUGH", "COUGH"],
      mkG "SAME /U:/ VOWEL SOUND" "blue" ["BLUE", "TRUE", "CREW", "SHOE"],
      mkG "WORDS WITH SILENT LETTERS" "purple" ["KNIGHT", "WRITE", "THUMB", "LAMB"]] },
  { id := "Puzzle 3", groups := [
      mkG "PERCEPTUAL FREQUENCY SCALES" "purple" ["MEL", "BARK", "ERB", "SEMITONE"],
      mkG "PROSODIC FEATURES" "blue" ["PITCH", "STRESS", "TONE", "DURATION"],
      mkG "SPECTRAL COMPONENTS" "green" ["FORMANT", "HARMONIC", "CEPSTRUM", "SPECTRUM"],
      mkG "MEASUREMENT UNITS" "yellow" ["HERTZ", "DECIBEL", "FRAME", "SAMPLE"]] },
  { id := "Puzzle 4", groups := [
      mkG "MEANS \"GIFT\" (EN/FR/DE/ES)" "purple" ["GIFT", "CADEAU", "GESCHENK", "REGALO"],
      mkG "MEANS \"NAME\" (EN/FR/ES/IT)" "blue" ["NAME", "NOM", "NOMBRE", "NOME"],
      mkG "MEANS \"WORD\" (FR/DE/ES/IT)" "green" ["MOT", "WORT", "PALABRA", "PAROLA"],
      mkG "MEANS \"LANGUAGE\" (FR/DE/ES/IT)" "yellow" ["LANGUE", "SPRACHE", "LENGUA", "LINGUA"]] },
  { id := "Puzzle 5", groups := [
      mkG "DISTINCTIVE PHONOLOGICAL FEATURES" "purple"
        ["SONORANT", "CONTINUANT", "STRIDENT", "SIBILANT"],
      mkG "PLACES OF ARTICULATION" "blue" ["LABIAL", "DENTAL", "VELAR", "GLOTTAL"],
      mkG "PHONATION TYPES" "green" ["CREAKY", "BREATHY", "MODAL", "FALSETTO"],
      mkG "SYNTACTIC CONSTITUENTS" "yellow" ["CLAUSE", "PHRASE", "MORPHEME", "LEXEME"]] },
  { id := "Puzzle 6", groups := [
      mkG "TOKENIZATION ALGORITHMS" "purple" ["BPE", "WORDPIECE", "SENTENCEPIECE", "UNIGRAM"],
      mkG "DECODING STRATEGIES" "blue" ["GREEDY", "BEAM", "SAMPLING", "NUCLEUS"],
      mkG "ACOUSTIC FEATURES" "green" ["MFCC", "FBANK", "SPECTROGRAM", "WAVEFORM"],
      mkG "NEURAL ARCHITECTURES" "yellow" ["TRANSFORMER", "CONFORMER", "LSTM", "GRU"]] },
  { id := "Puzzle 7", groups := [
      mkG "MEANS \"POTATO\" (FR/DE/RU/ES)" "purple"
        ["POMME DE TERRE", "KARTOFFEL", "КАРТОФЕЛЬ", "PATATA"],
      mkG "MEANS \"ORANGE\" (FR/DE/RU/ES)" "blue"
        ["ORANGE", "APFELSINE", "АПЕЛЬСИН", "NARANJA"],
      mkG "MEANS \"PINEAPPLE\" (FR/DE/RU/ES)" "green"
        ["ANANAS", "ANANAS", "АНАНАС", "PIÑA"],
      mkG "MEANS \"LEMON\" (FR/DE/RU/ES)" "yellow"
        ["CITRON", "ZITRONE", "ЛИМОН", "LIMÓN"]] },
  { id := "Puzzle 8", groups := [
      mkG "PHONOLOGICAL PROCESSES" "purple"
        ["ASSIMILATION", "DISSIMILATION", "EPENTHESIS", "METATHESIS"],
      mkG "LINGUISTIC TYPOLOGY" "blue"
        ["AGGLUTINATIVE", "FUSIONAL", "ISOLATING", "POLYSYNTHETIC"],
      mkG "WRITING SYSTEMS" "green" ["ABJAD", "ABUGIDA", "SYLLABARY", "LOGOGRAPHIC"],
      mkG "SPEECH ERRORS" "yellow" ["SPOONERISM", "MALAPROPISM", "EGGCORN", "MONDEGREEN"]] },
  { id := "Puzzle 9", groups := [
      mkG "LOSS FUNCTIONS IN ASR/TTS" "purple" ["CTC", "TRANSDUCER", "ATTENTION", "FOCAL"],
      mkG "DATA AUGMENTATION METHODS" "blue" ["SPECAUGMENT", "MIXUP", "SPEED", "VOLUME"],
      mkG "SPEECH CORPORA" "green" ["LIBRISPEECH", "COMMONVOICE", "VCTK", "LJSPEECH"],
      mkG "EVALUATION METRICS" "yellow" ["WER", "MOS", "BLEU", "PESQ"]] },
  { id := "Puzzle 10", groups := [
      mkG "NEURAL VOCODERS" "purple" ["HIFIGAN", "MELGAN", "WAVEGLOW", "PARALLEL-WAVEGAN"],
      mkG "END-TO-END TTS MODELS" "blue" ["TACOTRON", "FASTSPEECH", "VITS", "GLOWTTS"],
      mkG "SELF-SUPERVISED SPEECH MODELS" "green" ["WAV2VEC", "HUBERT", "WAVLM", "W2V-BERT"],
      mkG "SPEECH SYNTHESIS FEATURES" "yellow" ["PROSODY", "SPEAKER", "STYLE", "EMOTION"]] }]

/-! Structural well-formedness of puzzles. -/

/-- Decidable check of the puzzle structural invariant claimed for the
catalog: exactly 4 groups, each with exactly 4 distinct words, every
word fixed by uppercasing, and all 16 words distinct across the
puzzle. -/
def puzzleWFb (p : Puzzle) : Bool :=
  p.groups.length == 4
    && p.groups.all (fun g =>
      g.words.length == 4
        && decide g.words.Nodup
        && g.words.all (fun w => jsToUpperCase w == w))
    && decide (p.groups.flatMap (fun g => g.words)).Nodup

/-- The well-formedness assumptions used by the guess-evaluation
proofs: each group holds 4 distinct words and no word occurs in two
places of the puzzle. -/
def puzzleWF (p : Puzzle) : Prop :=
  (∀ g ∈ p.groups, g.words.length = 4 ∧ g.words.Nodup)
    ∧ (p.groups.flatMap (fun g => g.words)).Nodup

/-! Session invariants. -/

/-- The session invariant exactly as the specification states it,
including the conjunct `found.length == 4 ⇒ !failed`. -/
def sessionInvariantClaimed (s : SessionState) : Prop :=
  (s.locked = true ↔ (s.found.length = 4 ∨ s.mistakes ≥ 4))
    ∧ (s.failed = true → s.locked = true)
    ∧ (s.found.length = 4 → s.failed = false)
    ∧ s.selection.length ≤ 4
    ∧ (s.locked = true → s.selection = [])

/-- The session invariant with the one conjunct the code refutes
weakened: after a failure reveal, `found` holds all 4 groups with
`failed = true`, so 4 found entries rule out `failed` only while fewer
than 4 mistakes are recorded. -/
def sessionInvariantAmended (s : SessionState) : Prop :=
  (s.locked = true ↔ (s.found.length = 4 ∨ s.mistakes ≥ 4))
    ∧ (s.failed = true → s.locked = true)
    ∧ (s.found.length = 4 → s.mistakes < 4 → s.failed = false)
    ∧ s.selection.length ≤ 4
    ∧ (s.locked = true → s.selection = [])

/-- Strengthened inductive invariant from which both directions of the
amended invariant follow. -/
def sessionInvStrong (s : SessionState) : Prop :=
  (s.locked = true ↔ (s.found.length = 4 ∨ s.mistakes ≥ 4))
    ∧ (s.failed = true → s.locked = true)
    ∧ (s.failed = true → s.mistakes ≥ 4)
    ∧ s.selection.length ≤ 4
    ∧ (s.locked = true → s.selection = [])

/-! Concrete scenario data. -/

/-- The worked example puzzle of the specification: PRIMARY COLORS,
BIRDS, TOOLS, PLANETS. -/
def examplePuzzle : Puzzle :=
  { id := "example", groups := [
      mkG "PRIMARY COLORS" "yellow" ["RED", "BLUE", "YELLOW", "GREEN"],
      mkG "BIRDS" "green" ["ROBIN", "WREN", "HERON", "SWAN"],
      mkG "TOOLS" "blue" ["SAW", "DRILL", "PLANE", "LEVEL"],
      mkG "PLANETS" "purple" ["MARS", "VENUS", "EARTH", "SATURN"]] }

/-- A session on the example puzzle freshly started from defaults
(empty key list: the initial shuffle is the identity permutation). -/
def exampleStart : SessionState := loadPuzzle examplePuzzle []

/-- Four distinct incorrect guesses (`RED BLUE YELLOW` plus one bird
each time), driving the session into the failure reveal. -/
def fourMistakesOps : List Op :=
  [.toggleSelect 0, .toggleSelect 1, .toggleSelect 2, .toggleSelect 4,
    .submitGuess 1 [],
    .toggleSelect 4, .toggleSelect 5, .submitGuess 2 [],
    .toggleSelect 5, .toggleSelect 6, .submitGuess 3 [],
    .toggleSelect 6, .toggleSelect 7, .submitGuess 4 []]

/-- The failed session reached by the four incorrect guesses. -/
def failedSession : SessionState := runOps exampleStart fourMistakesOps

/-- Scripted scenario, step 1: select RED, BLUE, YELLOW, GREEN (pool
indices 0-3) and submit. -/
def c8Step1 : SessionState × SubmitResult :=
  submit (toggle (toggle (toggle (toggle exampleStart 0) 1) 2) 3) 1 []

/-- Step 2: select ROBIN, SAW, MARS, VENUS (indices 4, 8, 12, 13) and
submit. -/
def c8Step2 : SessionState × SubmitResult :=
  submit (toggle (toggle (toggle (toggle c8Step1.1 4) 8) 12) 13) 2 []

/-- Step 3: deselect SAW (8), select EARTH (14), giving MARS, VENUS,
EARTH, ROBIN, and submit. -/
def c8Step3 : SessionState × SubmitResult :=
  submit (toggle (toggle c8Step2.1 8) 14) 3 []

/-- Step 4: deselect EARTH (14), re-select SAW (8): the selection is
again ROBIN, SAW, MARS, VENUS; submit. -/
def c8Step4 : SessionState × SubmitResult :=
  submit (toggle (toggle c8Step3.1 14) 8) 4 []

/-- A concrete mid-game session on the example puzzle with one prior
mistake (ROBIN SAW MARS VENUS) logged and the same four words selected
again in a different order. -/
def c5State : SessionState :=
  { data := normalizePuzzle examplePuzzle
    id := "example"
    order := [0, 1, 2, 3, 5, 6, 7, 9, 10, 11, 14, 15]
    selection := [4, 12, 13, 8]
    found := []
    mistakes := 1
    mistakesLog := [⟨1, [some "ROBIN", some "SAW", some "MARS", some "VENUS"]⟩]
    guesses := [⟨[some "ROBIN", some "SAW", some "MARS", some "VENUS"],
      ["green", "blue", "purple", "purple"], false⟩]
    locked := false
    failed := false }

/-! Model of the persisted-snapshot restore path (`restoreIfAny`,
game.js lines 481-507).  The stored value is parsed JSON, so the
restored fields can have any dynamic shape; the restore target is
therefore modelled with dynamically-typed fields. -/

/-- A JSON-like JavaScript value.  `undefinedV` is the result of reading a
missing property; `JSON.parse` itself never produces it. -/
inductive JValue where
  | undefinedV
  | null
  | bool (b : Bool)
  | num (q : ℚ)
  | str (s : String)
  | arr (elems : List JValue)
  | obj (fields : List (String × JValue))
deriving BEq

/-- JavaScript truthiness (`!!v`) of a JSON-like value. -/
def jsTruthy : JValue → Bool
  | .undefinedV => false
  | .null => false
  | .bool b => b
  | .num q => !(q == 0)
  | .str s => !(s == "")
  | .arr _ => true
  | .obj _ => true

/-- JavaScript property read `v[k]`: throws a `TypeError` on `null`
and `undefined`, yields the field of an object (or `undefined` when
absent), and `undefined` on every other primitive or array. -/
def jsFieldGet (v : JValue) (k : String) : Except Unit JValue :=
  match v with
  | .null => .error ()
  | .undefinedV => .error ()
  | .obj fields =>
    .ok (((fields.find? (fun f => f.1 == k)).map (fun f => f.2)).getD .undefinedV)
  | _ => .ok .undefinedV

/-- `new Set(xs)` of dynamic values: de-duplicate, keeping first
occurrences in insertion order. -/
def jsNewSet (xs : List JValue) : List JValue :=
  xs.foldl (fun acc x => if acc.contains x then acc else acc ++ [x]) []

/-- The session fields as `restoreIfAny` writes them: restored from
untyped JSON, so list-valued fields may hold arbitrary values and
`mistakes` is whatever integer the snapshot carried. -/
structure RawSession where
  data : Puzzle
  order : List JValue
  selection : List JValue
  found : List JValue
  mistakes : Int
  mistakesLog : List JValue
  guesses : List JValue
  locked : Bool
  failed : Bool

/-- The `colorName` backfill loop at the end of `restoreIfAny`
(game.js lines 499-505): `if (!g.colorName && g.color) g.colorName =
COLOR_REVERSE[g.color] || g.color`. -/
def fixupColorNames (p : Puzzle) : Puzzle :=
  { p with groups := p.groups.map (fun g =>
      if (match g.colorName with | none => true | some s => s == "") &&
          !(g.color == "") then
        { g with colorName := some (jsOr (COLOR_REVERSE g.color) g.color) }
      else g) }

/-- Body of the `try` block of `restoreIfAny` applied to the parsed
snapshot `p` (game.js lines 487-505).  Each property read can throw
(only when `p` itself is `null`); each field is individually
shape-checked and otherwise falls back (to the prior value for
`order`, to the empty/zero default for the rest). -/
def restoreAttempt (st : RawSession) (p : JValue) : Except Unit RawSession := do
  let v ← jsFieldGet p "order"
  let st := { st with order := match v with | .arr xs => xs | _ => st.order }
  let v ← jsFieldGet p "selection"
  let selRaw := match v with | .arr xs => xs | _ => []
  let st := { st with selection := jsNewSet selRaw }
  let v ← jsFieldGet p "found"
  let st := { st with found := match v with | .arr xs => xs | _ => [] }
  let v ← jsFieldGet p "mistakes"
  let st := { st with mistakes :=
    match v with | .num q => if q.den = 1 then q.num else 0 | _ => 0 }
  let v ← jsFieldGet p "mistakesLog"
  let st := { st with mistakesLog := match v with | .arr xs => xs | _ => [] }
  let v ← jsFieldGet p "guesses"
  let st := { st with guesses := match v with | .arr xs => xs | _ => [] }
  let v ← jsFieldGet p "locked"
  let st := { st with locked := jsTruthy v }
  let v ← jsFieldGet p "failed"
  let failedMissing := match v with | .undefinedV => true | _ => false
  let newFailed := if failedMissing && st.locked then decide (st.mistakes ≥ 4)
    else jsTruthy v
  let st := { st with failed := newFailed }
  let st := { st with data := fixupColorNames st.data }
  return st

/-- Model of `restoreIfAny` (game.js lines 481-507) over the stored
value: `none` = nothing stored, `some none` = stored text that
`JSON.parse` rejects (the exception is caught), `some (some p)` = the
parsed snapshot.  The `catch` returns the prior state unchanged: the
only statement of the `try` block that can throw is the very first
property read (when the parsed value is `null`), which happens before
any field has been assigned. -/
def restoreIfAny (st : RawSession) (raw : Option (Option JValue)) :
    RawSession :=
  match raw with
  | none => st
  | some none => st
  | some (some p) =>
    match restoreAttempt st p with
    | .ok st2 => st2
    | .error _ => st

/-- Total property read `p[k]` for a value that is not `null` or
`undefined` (on which `jsFieldGet` is exception-free). -/
def jsFieldGetD (p : JValue) (k : String) : JValue :=
  match p with
  | .obj fields => (((fields.find? (fun f => f.1 == k)).map (fun f => f.2)).getD .undefinedV)
  | _ => .undefinedV

/-- The overlay that the exception-free run of `restoreIfAny` performs
on the session: every field individually shape-checked, with its
fallback (the prior `order`, the empty/zero defaults, truthiness for
the flags) when the snapshot field is absent or has the wrong shape,
and the backward-compatible derivation of `failed` when the snapshot
predates that field.  `C7_restore_never_throws_and_failed_backfill`
proves `restoreIfAny` equals this overlay on every parsed value that
does not make the first property read throw. -/
def restoreOverlay (st : RawSession) (p : JValue) : RawSession :=
  let newOrder := match jsFieldGetD p "order" with | .arr xs => xs | _ => st.order
  let newSelection := jsNewSet
    (match jsFieldGetD p "selection" with | .arr xs => xs | _ => [])
  let newFound := match jsFieldGetD p "found" with | .arr xs => xs | _ => []
  let newMistakes : Int := match jsFieldGetD p "mistakes" with
    | .num q => if q.den = 1 then q.num else 0
    | _ => 0
  let newLog := match jsFieldGetD p "mistakesLog" with | .arr xs => xs | _ => []
  let newGuesses := match jsFieldGetD p "guesses" with | .arr xs => xs | _ => []
  let newLocked := jsTruthy (jsFieldGetD p "locked")
  let failedMissing := match jsFieldGetD p "failed" with
    | .undefinedV => true
    | _ => false
  let newFailed := if failedMissing && newLocked then decide (newMistakes ≥ 4)
    else jsTruthy (jsFieldGetD p "failed")
  { data := fixupColorNames st.data
    order := newOrder
    selection := newSelection
    found := newFound
    mistakes := newMistakes
    mistakesLog := newLog
    guesses := newGuesses
    locked := newLocked
    failed := newFailed }

/-- The freshly-initialized raw session `loadPuzzle` builds before it
calls `restoreIfAny`. -/
def rawDefault : RawSession :=
  { data := normalizePuzzle examplePuzzle
    order := []
    selection := []
    found := []
    mistakes := 0
    mistakesLog := []
    guesses := []
    locked := false
    failed := false }

/-! Auxiliary facts about ASCII uppercasing. -/

theorem char_toNat_ofNat_of_lt {n : Nat} (h : n < 55296) :
    (Char.ofNat n).toNat = n := by
  have hv : n.isValidChar := Or.inl h
  simp [Char.ofNat, dif_pos hv, Char.ofNatAux, Char.toNat, UInt32.toNat,
    BitVec.toNat_ofNatLt]

theorem char_toUpper_idem (c : Char) : c.toUpper.toUpper = c.toUpper := by
  unfold Char.toUpper
  by_cases h : c.toNat ≥ 97 ∧ c.toNat ≤ 122
  · rw [if_pos h]
    have h2 : (Char.ofNat (c.toNat - 32)).toNat = c.toNat - 32 :=
      char_toNat_ofNat_of_lt (by omega)
    rw [if_neg]
    rw [h2]
    omega
  · rw [if_neg h, if_neg h]

theorem jsToUpperCase_eq_toUpper : jsToUpperCase = String.toUpper := by
  funext s
  simp [jsToUpperCase, String.toUpper, String.map_eq]

theorem jsToUpperCase_idem (s : String) :
    jsToUpperCase (jsToUpperCase s) = jsToUpperCase s := by
  simp only [jsToUpperCase, List.map_map]
  exact congrArg String.mk (List.map_congr_left fun c _ => char_toUpper_idem c)

/-! Facts about the color lookup tables. -/

theorem color_map_inverse {c v : String} (h : COLOR_MAP c = some v) :
    COLOR_REVERSE v = some c ∧ COLOR_MAP v = none ∧ v ≠ "" ∧ c ≠ "" := by
  unfold COLOR_MAP at h
  split_ifs at h with h1 h2 h3 h4 <;>
    first
      | (injection h with hv
         subst hv
         subst_vars
         refine ⟨rfl, rfl, ?_, ?_⟩ <;> decide)
      | exact absurd h (by simp)

/-! Idempotence of puzzle normalization (C10). -/

theorem normalizeGroup_words_idem (ws : List String) :
    (ws.map jsToUpperCase).map jsToUpperCase = ws.map jsToUpperCase := by
  rw [List.map_map]
  exact List.map_congr_left fun w _ => jsToUpperCase_idem w

theorem normalizeGroup_idem (g : Group) :
    normalizeGroup (normalizeGroup g) = normalizeGroup g := by
  obtain ⟨cat, co, ws, cn⟩ := g
  rcases h : COLOR_MAP co with _ | v
  · simp only [normalizeGroup, h, jsOr, normalizeGroup_words_idem]
  · obtain ⟨hrev, hnone, hv, hc⟩ := color_map_inverse h
    simp only [normalizeGroup, h, jsOr, if_neg hv, hnone, hrev, if_neg hc,
      normalizeGroup_words_idem]

theorem normalizePuzzle_idem (p : Puzzle) :
    normalizePuzzle (normalizePuzzle p) = normalizePuzzle p := by
  obtain ⟨i, gs⟩ := p
  simp only [normalizePuzzle, List.map_map]
  exact congrArg _ (List.map_congr_left fun g _ => normalizeGroup_idem g)

theorem normalizeGroup_unrecognized {g : Group}
    (h1 : COLOR_MAP g.color = none) (h2 : COLOR_REVERSE g.color = none) :
    (normalizeGroup g).color = g.color
      ∧ (normalizeGroup g).colorName = some g.color := by
  simp [normalizeGroup, h1, h2, jsOr]

/-- C10: `normalizePuzzle` is idempotent on every puzzle, and a group
whose color value is recognized by neither lookup table keeps its
color unchanged (its `colorName` is set to that same unrecognized
value); no input makes normalization fail. -/
theorem C10_normalizePuzzle_idempotent_and_unrecognized_color :
    (∀ p : Puzzle, normalizePuzzle (normalizePuzzle p) = normalizePuzzle p)
      ∧ (∀ p : Puzzle, ∀ g ∈ p.groups,
          COLOR_MAP g.color = none → COLOR_REVERSE g.color = none →
          normalizeGroup g ∈ (normalizePuzzle p).groups
            ∧ (normalizeGroup g).color = g.color) :=
  ⟨normalizePuzzle_idem,
    fun _ g hg h1 h2 =>
      ⟨List.mem_map_of_mem normalizeGroup hg,
        (normalizeGroup_unrecognized h1 h2).1⟩⟩

/-- Witness for C10 at concrete inputs: the catalog's first puzzle and
a group with the unrecognized color value `"magenta"`. -/
theorem C10_witness :
    normalizePuzzle (normalizePuzzle examplePuzzle) = normalizePuzzle examplePuzzle
      ∧ (normalizeGroup (mkG "X" "magenta" ["a"])).color = "magenta" :=
  ⟨C10_normalizePuzzle_idempotent_and_unrecognized_color.1 examplePuzzle,
    (C10_normalizePuzzle_idempotent_and_unrecognized_color.2
      { id := "x", groups := [mkG "X" "magenta" ["a"]] }
      (mkG "X" "magenta" ["a"]) (by simp) rfl rfl).2⟩

/-! The static catalog violates the structural invariant (C1). -/

/-- C1: the claim that every catalog puzzle satisfies the structural
invariant is false: the check fails over the catalog, specifically on
`SAMPLES[6]` (`Puzzle 7`), whose normalized word pool contains the
word `ANANAS` twice (it is both the French and the German entry of the
pineapple group), so that group has only 3 distinct words and the
puzzle only 15 distinct words. -/
theorem C1_catalog_structural_invariant_fails :
    SAMPLES.all (fun p => puzzleWFb (normalizePuzzle p)) = false
      ∧ (SAMPLES.get? 6).map (fun p => puzzleWFb (normalizePuzzle p)) = some false
      ∧ (SAMPLES.get? 6).map (fun p =>
          ((normalizePuzzle p).groups.flatMap (fun g => g.words)).count "ANANAS")
        = some 2 :=
  ⟨rfl, rfl, rfl⟩

/-! The worked example scenario (C8). -/

/-- C8: on the example puzzle, submitting RED BLUE YELLOW GREEN solves
PRIMARY COLORS with no mistake and no lock; ROBIN SAW MARS VENUS is a
mistake with `oneAway = false`; MARS VENUS EARTH ROBIN is a mistake
with `oneAway = true` (3 planets); resubmitting ROBIN SAW MARS VENUS
is rejected as already tried, leaving the state (and the mistake count
of 2) unchanged. -/
theorem C8_example_scenario :
    c8Step1.1.found.map (fun g => g.category) = ["PRIMARY COLORS"]
      ∧ c8Step1.1.mistakes = 0
      ∧ c8Step1.1.locked = false
      ∧ c8Step2.2 = SubmitResult.incorrectGuess false false
      ∧ c8Step2.1.mistakes = 1
      ∧ c8Step3.2 = SubmitResult.incorrectGuess true false
      ∧ c8Step3.1.mistakes = 2
      ∧ c8Step4.2 = SubmitResult.alreadyTriedReject
      ∧ c8Step4.1 = toggle (toggle c8Step3.1 14) 8
      ∧ c8Step4.1.mistakes = 2 :=
  ⟨rfl, rfl, rfl, rfl, rfl, rfl, rfl, rfl, rfl, rfl⟩

/-! Invariant preservation (C2). -/

theorem buildBoardSync_fields (s : SessionState) (keys : List Nat) :
    (buildBoardSync s keys).data = s.data
      ∧ (buildBoardSync s keys).locked = s.locked
      ∧ (buildBoardSync s keys).found = s.found
      ∧ (buildBoardSync s keys).mistakes = s.mistakes
      ∧ (buildBoardSync s keys).failed = s.failed
      ∧ ((buildBoardSync s keys).selection = s.selection
          ∨ (buildBoardSync s keys).selection = []) := by
  unfold buildBoardSync
  split
  · simp
  · split
    · simp
    · simp

theorem buildBoardSync_inv {s : SessionState} (keys : List Nat)
    (h : sessionInvStrong s) : sessionInvStrong (buildBoardSync s keys) := by
  obtain ⟨hd, hl, hf, hm, hfl, hsel⟩ := buildBoardSync_fields s keys
  obtain ⟨h1, h2, h3, h4, h5⟩ := h
  refine ⟨by rw [hl, hf, hm]; exact h1, by rw [hfl, hl]; exact h2,
    by rw [hfl, hm]; exact h3, ?_, ?_⟩
  · rcases hsel with h6 | h6 <;> rw [h6] <;> simp [h4]
  · intro hlk
    rcases hsel with h6 | h6
    · rw [h6]; exact h5 (hl ▸ hlk)
    · rw [h6]

theorem toggle_inv {s : SessionState} (i : Nat)
    (h : sessionInvStrong s) : sessionInvStrong (toggle s i) := by
  obtain ⟨h1, h2, h3, h4, h5⟩ := h
  unfold toggle
  split
  · exact ⟨h1, h2, h3, h4, h5⟩
  · next hl =>
    split
    · refine ⟨h1, h2, h3, ?_, ?_⟩
      · exact le_trans (List.length_filter_le _ _) h4
      · intro hlk; exact absurd hlk hl
    · split
      · exact ⟨h1, h2, h3, h4, h5⟩
      · next hlen =>
        refine ⟨h1, h2, h3, ?_, ?_⟩
        · simp only [List.length_append, List.length_cons, List.length_nil]
          omega
        · intro hlk; exact absurd hlk hl

theorem deselectAll_inv {s : SessionState}
    (h : sessionInvStrong s) : sessionInvStrong (deselectAll s) := by
  obtain ⟨h1, h2, h3, h4, h5⟩ := h
  unfold deselectAll
  split
  · exact ⟨h1, h2, h3, h4, h5⟩
  · exact ⟨h1, h2, h3, by simp, fun _ => rfl⟩

theorem shuffleBoard_inv {s : SessionState} (k1 k2 : List Nat)
    (h : sessionInvStrong s) : sessionInvStrong (shuffleBoard s k1 k2) := by
  unfold shuffleBoard
  split
  · exact h
  · obtain ⟨h1, h2, h3, h4, h5⟩ := h
    exact buildBoardSync_inv k2 ⟨h1, h2, h3, h4, h5⟩

theorem resetPuzzle_inv (s : SessionState) (keys : List Nat) :
    sessionInvStrong (resetPuzzle s keys) := by
  unfold resetPuzzle
  exact buildBoardSync_inv keys
    ⟨by simp, by simp, by simp, by simp, by simp⟩

theorem loadPuzzle_inv (json : Puzzle) (keys : List Nat) :
    sessionInvStrong (loadPuzzle json keys) := by
  unfold loadPuzzle
  exact buildBoardSync_inv keys
    ⟨by simp, by simp, by simp, by simp, by simp⟩

theorem submit_inv {s : SessionState} (ts : Nat) (keys : List Nat)
    (h : sessionInvStrong s) : sessionInvStrong (submit s ts keys).1 := by
  obtain ⟨h1, h2, h3, h4, h5⟩ := h
  by_cases hl : s.locked = true
  · simpa [submit, hl] using ⟨h1, h2, h3, h4, h5⟩
  · have hfailed : s.failed = false := by
      cases hf : s.failed
      · rfl
      · exact absurd (h2 hf) hl
    have hside : ¬(s.found.length = 4 ∨ s.mistakes ≥ 4) := fun hc => hl (h1.mpr hc)
    have hfound4 : s.found.length ≠ 4 := fun hc => hside (Or.inl hc)
    have hmist : s.mistakes < 4 := by
      by_contra hc
      exact hside (Or.inr (Nat.le_of_not_lt (fun hcc => hc hcc)))
    by_cases hsel4 : s.selection.length = 4
    · by_cases hdup : (s.mistakesLog.any
        (fun e => jsSortJoin e.words == jsSortJoin (wordsOfSelection s))) = true
      · simpa [submit, hl, hsel4, hdup] using ⟨h1, h2, h3, h4, h5⟩
      · rcases hm : findMatch s.data.groups (wordsOfSelection s) with _ | mg
        · by_cases hmax : 3 ≤ s.mistakes
          · simp only [submit, hl, hsel4, hdup, hm, MAX_MISTAKES,
              Bool.false_eq_true, if_false, ite_false, ite_true, if_true,
              ne_eq, not_true_eq_false, not_false_eq_true, revealAllAndLock]
            simp only [sessionInvStrong]
            simp [hmax]
          · simp only [submit, hl, hsel4, hdup, hm, MAX_MISTAKES,
              Bool.false_eq_true, if_false, ite_false, ite_true, if_true,
              ne_eq, not_true_eq_false, not_false_eq_true]
            simp only [sessionInvStrong]
            simp [hmax, hfailed, hl]
            exact ⟨hfound4, h4⟩
        · simp only [submit, hl, hsel4, hdup, hm,
            Bool.false_eq_true, if_false, ite_false, ite_true, if_true,
            ne_eq, not_true_eq_false, not_false_eq_true]
          apply buildBoardSync_inv
          simp only [sessionInvStrong]
          by_cases hsolved : s.found.length = 3
          · simp [hsolved]
          · simp [hsolved, hl, hfailed]
            exact hmist
    · simpa [submit, hl, hsel4] using ⟨h1, h2, h3, h4, h5⟩

theorem applyOp_inv {s : SessionState} (op : Op)
    (h : sessionInvStrong s) : sessionInvStrong (applyOp s op) := by
  cases op with
  | toggleSelect i => exact toggle_inv i h
  | deselectAll => exact deselectAll_inv h
  | shuffleDisplayOrder k1 k2 => exact shuffleBoard_inv k1 k2 h
  | submitGuess ts keys => exact submit_inv ts keys h
  | reset keys => exact resetPuzzle_inv s keys

theorem runOps_inv {s : SessionState} (ops : List Op)
    (h : sessionInvStrong s) : sessionInvStrong (runOps s ops) := by
  induction ops generalizing s with
  | nil => exact h
  | cons op rest ih => exact ih (applyOp_inv op h)

theorem strong_implies_amended {s : SessionState}
    (h : sessionInvStrong s) : sessionInvariantAmended s := by
  obtain ⟨h1, h2, h3, h4, h5⟩ := h
  refine ⟨h1, h2, ?_, h4, h5⟩
  intro _ hm
  cases hf : s.failed
  · rfl
  · exact absurd (h3 hf) (by omega)

/-- C2 (amended): starting a session from defaults on any puzzle, every
sequence of `toggleSelect`, `deselectAll`, `shuffleDisplayOrder`,
`submitGuess` and `reset` operations maintains: `locked` holds exactly
when `found` has 4 entries or `mistakeCount ≥ 4`; `failed` implies
`locked`; `found` having 4 entries with fewer than 4 recorded mistakes
implies not `failed`; the selection has at most 4 members; and a
locked session has an empty selection.  (The original conjunct "found
having 4 entries implies not failed" is refuted by
`C2_counterexample`: the failure reveal puts all 4 groups into `found`
with `failed = true`.) -/
theorem C2_session_invariants (p : Puzzle) (initKeys : List Nat)
    (ops : List Op) :
    sessionInvariantAmended (runOps (loadPuzzle p initKeys) ops) :=
  strong_implies_amended (runOps_inv ops (loadPuzzle_inv p initKeys))

/-- C2 counterexample: after four distinct incorrect guesses on the
example puzzle, `found` holds all 4 groups and `failed = true`, so the
conjunct `found.length = 4 → failed = false` of the claimed invariant
is false for this reachable session. -/
theorem C2_counterexample :
    failedSession = runOps (loadPuzzle examplePuzzle []) fourMistakesOps
      ∧ failedSession.found.length = 4
      ∧ failedSession.failed = true
      ∧ ¬ sessionInvariantClaimed failedSession := by
  refine ⟨rfl, rfl, rfl, ?_⟩
  rintro ⟨-, -, h3, -, -⟩
  have hf : failedSession.failed = false := h3 (by rfl)
  have ht : failedSession.failed = true := by rfl
  rw [ht] at hf
  exact Bool.noConfusion hf

/-! The shuffle operation is a permutation (C9). -/

theorem jsSortInsert_eq_orderedInsert (le : α → α → Bool) (a : α)
    (l : List α) :
    jsSortInsert le a l = List.orderedInsert (fun x y => le x y = true) a l := by
  induction l with
  | nil => rfl
  | cons b bs ih =>
    simp only [jsSortInsert, List.orderedInsert, ih]

theorem jsSort_eq_insertionSort (le : α → α → Bool) (l : List α) :
    jsSort le l = List.insertionSort (fun x y => le x y = true) l := by
  induction l with
  | nil => rfl
  | cons a as ih =>
    simp only [jsSort, List.insertionSort, ih, jsSortInsert_eq_orderedInsert]

theorem jsSort_perm (le : α → α → Bool) (l : List α) :
    (jsSort le l).Perm l := by
  rw [jsSort_eq_insertionSort]
  exact List.perm_insertionSort _ l

theorem jsShuffle_perm (keys : List Nat) (a : List α) :
    (jsShuffle keys a).Perm a := by
  unfold jsShuffle
  have h2 := (jsSort_perm (fun x y : Nat × α => decide (x.1 ≤ y.1))
    (a.enum.map (fun p => (keys.getD p.1 0, p.2)))).map (fun p : Nat × α => p.2)
  have h3 : (a.enum.map (fun p : Nat × α => (keys.getD p.1 0, p.2))).map
      (fun p : Nat × α => p.2) = a := by
    rw [List.map_map]
    have : ((fun p : Nat × α => p.2) ∘ fun p : Nat × α => (keys.getD p.1 0, p.2))
        = Prod.snd := by
      funext p
      rfl
    rw [this, List.enum_map_snd]
  rwa [h3] at h2

theorem jsShuffle_length (keys : List Nat) (a : List α) :
    (jsShuffle keys a).length = a.length :=
  (jsShuffle_perm keys a).length_eq

/-- C9: `shuffleDisplayOrder` is the identity on a locked session;
on an unlocked session whose `displayOrder` is in step with the active
words (as `buildBoard` maintains), it replaces `displayOrder` by a
permutation of it — whatever the outcome of the random source — and
leaves `selection` and `found` unchanged. -/
theorem C9_shuffleBoard_permutes (s : SessionState) (k1 k2 : List Nat) :
    (s.locked = true → shuffleBoard s k1 k2 = s)
      ∧ (s.locked = false →
          s.order.length = ((pool s).filter
            (fun w => !((foundWordsOf s).contains w))).length →
          (shuffleBoard s k1 k2).order.Perm s.order
            ∧ (shuffleBoard s k1 k2).selection = s.selection
            ∧ (shuffleBoard s k1 k2).found = s.found) := by
  constructor
  · intro hl
    simp [shuffleBoard, hl]
  · intro hl hsync
    have hres : shuffleBoard s k1 k2 = { s with order := jsShuffle k1 s.order } := by
      unfold shuffleBoard buildBoardSync
      rw [if_neg (by simp [hl]), if_neg (by simp [hl])]
      simp only [jsShuffle_length]
      rw [if_neg (by simp [pool, foundWordsOf, hsync])]
    rw [hres]
    exact ⟨jsShuffle_perm k1 s.order, rfl, rfl⟩

/-- Witness for C9: at the locked failed session the operation is the
identity; at the fresh example session (16 active words, order in
step) the shuffled order is a permutation of the previous one. -/
theorem C9_witness :
    shuffleBoard failedSession [3] [] = failedSession
      ∧ (shuffleBoard exampleStart [5] []).order.Perm exampleStart.order :=
  ⟨(C9_shuffleBoard_permutes failedSession [3] []).1 (by rfl),
    ((C9_shuffleBoard_permutes exampleStart [5] []).2 (by rfl) (by rfl)).1⟩

/-! Exact-set-equality matching (C3). -/

theorem puzzleWF_pairwise {p : Puzzle} (h : puzzleWF p) :
    p.groups.Pairwise (fun g1 g2 => ∀ w ∈ g1.words, w ∉ g2.words) := by
  have hd := (List.nodup_flatMap.mp h.2).2
  exact hd.imp (fun hdis w hw1 hw2 => hdis hw1 hw2)

theorem shared_word_eq {l : List Group}
    (hpw : l.Pairwise (fun g1 g2 => ∀ w ∈ g1.words, w ∉ g2.words)) :
    ∀ {g1}, g1 ∈ l → ∀ {g2}, g2 ∈ l → ∀ w, w ∈ g1.words → w ∈ g2.words →
      g1 = g2 := by
  induction l with
  | nil => intro g1 h; cases h
  | cons a t ih =>
    obtain ⟨ha, ht⟩ := List.pairwise_cons.mp hpw
    intro g1 h1 g2 h2 w hw1 hw2
    rcases List.mem_cons.mp h1 with rfl | h1m <;>
      rcases List.mem_cons.mp h2 with rfl | h2m
    · rfl
    · exact absurd hw2 (ha g2 h2m w hw1)
    · exact absurd hw1 (ha g1 h1m w hw2)
    · exact ih ht h1m h2m w hw1 hw2

theorem mem_iff_of_subset_of_nodup {α : Type _} {l1 l2 : List α}
    (h1 : l1.Nodup) (hsub : l1 ⊆ l2) (hlen : l2.length ≤ l1.length) :
    ∀ x, x ∈ l1 ↔ x ∈ l2 :=
  fun _ => ((List.subperm_of_subset h1 hsub).perm_of_length_le hlen).mem_iff

theorem find?_eq_some_of_mem_of_unique {α : Type _} {l : List α}
    {p : α → Bool} {a : α} (hmem : a ∈ l) (hpa : p a = true)
    (huniq : ∀ b ∈ l, p b = true → b = a) : l.find? p = some a := by
  induction l with
  | nil => cases hmem
  | cons x t ih =>
    by_cases hx : p x = true
    · have : x = a := huniq x (List.mem_cons_self x t) hx
      subst this
      simp [List.find?_cons, hx]
    · rw [List.find?_cons_of_neg _ (by simpa using hx)]
      apply ih
      · rcases List.mem_cons.mp hmem with rfl | h
        · exact absurd hpa hx
        · exact h
      · exact fun b hb hpb => huniq b (List.mem_cons_of_mem _ hb) hpb

theorem matchPred_iff_subset (ws : List String) (g : Group) :
    (g.words.all (fun w => (ws.map some).contains (some w)) = true)
      ↔ g.words ⊆ ws := by
  simp [List.all_eq_true, List.subset_def]

theorem findMatch_spec {p : Puzzle} (hwf : puzzleWF p) {ws : List String}
    (hlen : ws.length = 4) (hnd : ws.Nodup) (g : Group) :
    findMatch p.groups (ws.map some) = some g ↔
      g ∈ p.groups ∧ (∀ w, w ∈ g.words ↔ w ∈ ws) := by
  unfold findMatch
  constructor
  · intro hfind
    have hmem : g ∈ p.groups := List.mem_of_find?_eq_some hfind
    have hpred : g.words.all (fun w => (ws.map some).contains (some w)) = true := by
      simpa using List.find?_some hfind
    have hsub : g.words ⊆ ws := (matchPred_iff_subset ws g).mp hpred
    obtain ⟨hg4, hgnd⟩ := hwf.1 g hmem
    exact ⟨hmem, mem_iff_of_subset_of_nodup hgnd hsub (by omega)⟩
  · rintro ⟨hmem, hset⟩
    apply find?_eq_some_of_mem_of_unique hmem
    · exact (matchPred_iff_subset ws g).mpr (fun w hw => (hset w).mp hw)
    · intro b hb hpb
      have hbsub : b.words ⊆ ws := (matchPred_iff_subset ws b).mp hpb
      obtain ⟨hb4, _⟩ := hwf.1 b hb
      have hbne : b.words ≠ [] := by
        intro hc
        rw [hc] at hb4
        cases hb4
      obtain ⟨w, hw⟩ := List.exists_mem_of_ne_nil _ hbne
      have hwg : w ∈ g.words := (hset w).mpr (hbsub hw)
      exact shared_word_eq (puzzleWF_pairwise hwf) hb hmem w hw hwg

/-- C3: with a well-formed puzzle and a selection resolving to 4
pairwise-distinct words, the group `submit` computes as the `match`
(`findMatch`, game.js lines 360-362) is precisely the group whose word
set equals the selected word set: a group whose word set is a strict
subset or superset of the selection can never be the match, since the
equivalence forces equality of the two 4-element sets. -/
theorem C3_match_iff_exact_set_equality (s : SessionState)
    (hwf : puzzleWF s.data) (ws : List String)
    (hws : wordsOfSelection s = ws.map some)
    (hlen : ws.length = 4) (hnd : ws.Nodup) (g : Group) :
    findMatch s.data.groups (wordsOfSelection s) = some g ↔
      g ∈ s.data.groups ∧ (∀ w, w ∈ g.words ↔ w ∈ ws) := by
  rw [hws]
  exact findMatch_spec hwf hlen hnd g

/-- Witness for C3: on the example puzzle with RED BLUE YELLOW GREEN
selected, the computed match is the PRIMARY COLORS group. -/
theorem C3_witness :
    findMatch
      (toggle (toggle (toggle (toggle exampleStart 0) 1) 2) 3).data.groups
      (wordsOfSelection (toggle (toggle (toggle (toggle exampleStart 0) 1) 2) 3))
      = some (normalizeGroup
          (mkG "PRIMARY COLORS" "yellow" ["RED", "BLUE", "YELLOW", "GREEN"])) := by
  apply (C3_match_iff_exact_set_equality
    (toggle (toggle (toggle (toggle exampleStart 0) 1) 2) 3)
    (by constructor
        · decide
        · decide)
    ["RED", "BLUE", "YELLOW", "GREEN"] (by rfl) (by rfl) (by decide) _).mpr
  constructor
  · decide
  · exact fun w => Iff.rfl

/-! Effects of an incorrect, non-duplicate guess (C6). -/

theorem filter_contains_length_eq_inter_card {l ws : List String}
    (h : l.Nodup) :
    (l.filter (fun w => (ws.map some).contains (some w))).length
      = (l.toFinset ∩ ws.toFinset).card := by
  have hnd : (l.filter (fun w => (ws.map some).contains (some w))).Nodup :=
    h.filter _
  rw [← List.toFinset_card_of_nodup hnd, List.toFinset_filter]
  congr 1
  rw [← Finset.filter_mem_eq_inter]
  apply Finset.filter_congr
  intro x _
  simp

theorem oneAway_iff {p : Puzzle} (hwf : puzzleWF p) (ws : List String) :
    ((p.groups.any (fun g =>
        (g.words.filter (fun w => (ws.map some).contains (some w))).length == 3))
      = true)
      ↔ ∃ g ∈ p.groups, (g.words.toFinset ∩ ws.toFinset).card = 3 := by
  rw [List.any_eq_true]
  constructor
  · rintro ⟨g, hg, hlen⟩
    refine ⟨g, hg, ?_⟩
    rw [← filter_contains_length_eq_inter_card (hwf.1 g hg).2]
    exact beq_iff_eq.mp hlen
  · rintro ⟨g, hg, hcard⟩
    refine ⟨g, hg, ?_⟩
    rw [beq_iff_eq, filter_contains_length_eq_inter_card (hwf.1 g hg).2]
    exact hcard

/-- C6: an unlocked submit of 4 selected words that is neither a
previously-logged mistake nor a group match appends `{timestamp,
words}` to `mistakesLog`, sets the mistake count to `min 4 (count +
1)` (an increment of exactly 1, capped at 4), appends the guess to
`guessHistory` with `correct = false`, and signals `oneAway` exactly
when some group shares exactly 3 of its words with the selection. -/
theorem C6_incorrect_guess_effects (s : SessionState) (ts : Nat)
    (keys : List Nat) (ws : List String)
    (hwf : puzzleWF s.data)
    (hl : s.locked = false)
    (hsel4 : s.selection.length = 4)
    (hws : wordsOfSelection s = ws.map some)
    (hdup : (s.mistakesLog.any
      (fun e => jsSortJoin e.words == jsSortJoin (wordsOfSelection s))) = false)
    (hm : findMatch s.data.groups (wordsOfSelection s) = none) :
    (submit s ts keys).1.mistakesLog
        = s.mistakesLog ++ [⟨ts, wordsOfSelection s⟩]
      ∧ (submit s ts keys).1.mistakes = min MAX_MISTAKES (s.mistakes + 1)
      ∧ (submit s ts keys).1.guesses = s.guesses
          ++ [⟨wordsOfSelection s,
               (wordsOfSelection s).map (guessColorOf s.data.groups), false⟩]
      ∧ ∃ oneAway failedNow,
          (submit s ts keys).2 = SubmitResult.incorrectGuess oneAway failedNow
            ∧ (oneAway = true ↔
                ∃ g ∈ s.data.groups,
                  (g.words.toFinset ∩ ws.toFinset).card = 3) := by
  have hlf : ¬s.locked = true := by simp [hl]
  by_cases hmax : 3 ≤ s.mistakes
  · simp only [submit, hlf, hsel4, hdup, hm, hmax, MAX_MISTAKES,
      Bool.false_eq_true, if_false, ite_false, ite_true, if_true,
      ne_eq, not_true_eq_false, not_false_eq_true, revealAllAndLock]
    refine ⟨by simp [hmax], by simp [hmax], by simp [hmax],
      (s.data.groups.any fun g => (g.words.filter
        (fun w => (wordsOfSelection s).contains (some w))).length == 3), true,
      by simp [hmax], ?_⟩
    rw [hws]
    exact oneAway_iff hwf ws
  · simp only [submit, hlf, hsel4, hdup, hm, hmax, MAX_MISTAKES,
      Bool.false_eq_true, if_false, ite_false, ite_true, if_true,
      ne_eq, not_true_eq_false, not_false_eq_true]
    refine ⟨by simp [hmax], by simp [hmax], by simp [hmax],
      (s.data.groups.any fun g => (g.words.filter
        (fun w => (wordsOfSelection s).contains (some w))).length == 3), false,
      by simp [hmax], ?_⟩
    rw [hws]
    exact oneAway_iff hwf ws

/-- Witness for C6: the second scripted guess (ROBIN SAW MARS VENUS)
increments the mistake count from 0 to 1. -/
theorem C6_witness :
    (submit (toggle (toggle (toggle (toggle c8Step1.1 4) 8) 12) 13) 2 []).1.mistakes
      = min MAX_MISTAKES
          ((toggle (toggle (toggle (toggle c8Step1.1 4) 8) 12) 13).mistakes + 1) :=
  (C6_incorrect_guess_effects _ 2 [] ["ROBIN", "SAW", "MARS", "VENUS"]
    (by constructor
        · decide
        · decide)
    (by rfl) (by rfl) (by rfl) (by rfl) (by rfl)).2.1

/-! The fourth-mistake failure reveal (C4). -/

/-- C4: when an unlocked submit of a non-duplicate, non-matching
4-word guess happens with 3 recorded mistakes, the session locks with
`failed = true`; every group not already solved is appended to `found`
as a snapshot in catalog order, so `found` then contains a snapshot of
every group; and `guessHistory` receives exactly the one entry for the
guess itself — the reveal adds nothing to it. -/
theorem C4_fourth_mistake_reveal (s : SessionState) (ts : Nat)
    (keys : List Nat)
    (hwf : puzzleWF s.data)
    (hl : s.locked = false)
    (hsel4 : s.selection.length = 4)
    (hdup : (s.mistakesLog.any
      (fun e => jsSortJoin e.words == jsSortJoin (wordsOfSelection s))) = false)
    (hm : findMatch s.data.groups (wordsOfSelection s) = none)
    (hmist3 : s.mistakes = 3)
    (hfound : ∀ f ∈ s.found, ∃ g ∈ s.data.groups,
      f.category = g.category ∧ f.words = g.words) :
    (submit s ts keys).1.locked = true
      ∧ (submit s ts keys).1.failed = true
      ∧ (submit s ts keys).1.found = s.found ++
          (s.data.groups.filter (fun g => !(g.words.all (fun w =>
            (s.found.flatMap (fun f => f.words)).contains w)))).map foundSnapshot
      ∧ (∀ g ∈ s.data.groups, ∃ f ∈ (submit s ts keys).1.found,
          f.category = g.category ∧ f.words = g.words)
      ∧ (submit s ts keys).1.guesses = s.guesses ++
          [⟨wordsOfSelection s,
            (wordsOfSelection s).map (guessColorOf s.data.groups), false⟩] := by
  have hlf : ¬s.locked = true := by simp [hl]
  have hmax : 3 ≤ s.mistakes := by omega
  have hfound_eq : (submit s ts keys).1.found = s.found ++
      (s.data.groups.filter (fun g => !(g.words.all (fun w =>
        (s.found.flatMap (fun f => f.words)).contains w)))).map foundSnapshot := by
    simp only [submit, hlf, hsel4, hdup, hm, MAX_MISTAKES,
      Bool.false_eq_true, if_false, ite_false, ite_true, if_true,
      ne_eq, not_true_eq_false, not_false_eq_true, revealAllAndLock]
    simp [hmax, foundWordsOf]
  refine ⟨?_, ?_, hfound_eq, ?_, ?_⟩
  · simp only [submit, hlf, hsel4, hdup, hm, MAX_MISTAKES,
      Bool.false_eq_true, if_false, ite_false, ite_true, if_true,
      ne_eq, not_true_eq_false, not_false_eq_true, revealAllAndLock]
    simp [hmax]
  · simp only [submit, hlf, hsel4, hdup, hm, MAX_MISTAKES,
      Bool.false_eq_true, if_false, ite_false, ite_true, if_true,
      ne_eq, not_true_eq_false, not_false_eq_true, revealAllAndLock]
    simp [hmax]
  · intro g hg
    by_cases hcov : (g.words.all (fun w =>
        (s.found.flatMap (fun f => f.words)).contains w)) = true
    · obtain ⟨hg4, hgnd⟩ := hwf.1 g hg
      have hne : g.words ≠ [] := by
        intro hc
        rw [hc] at hg4
        cases hg4
      obtain ⟨w, hw⟩ := List.exists_mem_of_ne_nil _ hne
      have hwmem : w ∈ s.found.flatMap (fun f => f.words) := by
        have := (List.all_eq_true.mp hcov) w hw
        simpa using this
      obtain ⟨f, hf, hwIn⟩ := List.mem_flatMap.mp hwmem
      obtain ⟨g0, hg0, hcat, hwords⟩ := hfound f hf
      have hg0w : w ∈ g0.words := by
        rw [← hwords]
        exact hwIn
      have heq : g0 = g :=
        shared_word_eq (puzzleWF_pairwise hwf) hg0 hg w hg0w hw
      subst heq
      exact ⟨f, by rw [hfound_eq]; exact List.mem_append_left _ hf, hcat, hwords⟩
    · refine ⟨foundSnapshot g, ?_, rfl, rfl⟩
      rw [hfound_eq]
      apply List.mem_append_right
      exact List.mem_map_of_mem _
        (List.mem_filter.mpr ⟨hg, by simpa using hcov⟩)
  · simp only [submit, hlf, hsel4, hdup, hm, MAX_MISTAKES,
      Bool.false_eq_true, if_false, ite_false, ite_true, if_true,
      ne_eq, not_true_eq_false, not_false_eq_true, revealAllAndLock]
    simp [hmax]

/-- Witness for C4: the fourth scripted wrong guess locks and fails
the example session. -/
theorem C4_witness :
    (submit (runOps exampleStart (fourMistakesOps.take 13)) 4 []).1.locked = true
      ∧ (submit (runOps exampleStart (fourMistakesOps.take 13)) 4 []).1.failed
        = true := by
  have h := C4_fourth_mistake_reveal
    (runOps exampleStart (fourMistakesOps.take 13)) 4 []
    (by constructor
        · decide
        · decide)
    (by rfl) (by rfl) (by rfl) (by rfl) (by rfl) (by decide)
  exact ⟨h.1, h.2.1⟩

/-! Properties of the string comparator (C5). -/

theorem char_toNat_inj {a b : Char} (h : a.toNat = b.toNat) : a = b :=
  Char.ext (UInt32.toNat.inj h)

theorem charListLe_total : ∀ a b : List Char,
    charListLe a b = true ∨ charListLe b a = true := by
  intro a
  induction a with
  | nil => intro b; exact Or.inl rfl
  | cons c a' ih =>
    intro b
    cases b with
    | nil => exact Or.inr rfl
    | cons d b' =>
      by_cases h1 : c.toNat < d.toNat
      · exact Or.inl (by simp [charListLe, h1])
      · by_cases h2 : d.toNat < c.toNat
        · exact Or.inr (by simp [charListLe, h2])
        · rcases ih b' with h | h
          · exact Or.inl (by simp [charListLe, h1, h2, h])
          · exact Or.inr (by simp [charListLe, h1, h2, h])

theorem charListLe_trans : ∀ a b c : List Char,
    charListLe a b = true → charListLe b c = true → charListLe a c = true := by
  intro a
  induction a with
  | nil => intro b c _ _; rfl
  | cons x a' ih =>
    intro b c hab hbc
    cases b with
    | nil => simp [charListLe] at hab
    | cons y b' =>
      cases c with
      | nil => simp [charListLe] at hbc
      | cons z c' =>
        simp only [charListLe] at hab hbc ⊢
        by_cases h1 : x.toNat < y.toNat <;> by_cases h2 : y.toNat < z.toNat <;>
          by_cases h3 : y.toNat < x.toNat <;> by_cases h4 : z.toNat < y.toNat <;>
          simp [h1, h2, h3, h4] at hab hbc ⊢ <;>
          first
            | omega
            | (have hxz : ¬x.toNat < z.toNat := by omega
               have hzx : ¬z.toNat < x.toNat := by omega
               simp [hxz, hzx]
               first
                 | exact ih b' c' hab hbc
                 | exact ⟨by omega, ih b' c' hab hbc⟩
                 | (obtain ⟨h5, h6⟩ := hab
                    obtain ⟨h7, h8⟩ := hbc
                    exact ⟨by omega, ih b' c' h6 h8⟩))

theorem charListLe_antisymm : ∀ a b : List Char,
    charListLe a b = true → charListLe b a = true → a = b := by
  intro a
  induction a with
  | nil =>
    intro b _ hba
    cases b with
    | nil => rfl
    | cons d b' => simp [charListLe] at hba
  | cons c a' ih =>
    intro b hab hba
    cases b with
    | nil => simp [charListLe] at hab
    | cons d b' =>
      simp only [charListLe] at hab hba
      by_cases h1 : c.toNat < d.toNat <;> by_cases h2 : d.toNat < c.toNat <;>
        simp [h1, h2] at hab hba
      · omega
      · have : c = d := char_toNat_inj (by omega)
        subst this
        rw [ih b' hab hba]

theorem jsStrLe_total (a b : String) :
    jsStrLe a b = true ∨ jsStrLe b a = true :=
  charListLe_total a.data b.data

theorem jsStrLe_trans {a b c : String} (h1 : jsStrLe a b = true)
    (h2 : jsStrLe b c = true) : jsStrLe a c = true :=
  charListLe_trans a.data b.data c.data h1 h2

theorem jsStrLe_antisymm {a b : String} (h1 : jsStrLe a b = true)
    (h2 : jsStrLe b a = true) : a = b := by
  obtain ⟨da⟩ := a
  obtain ⟨db⟩ := b
  exact congrArg String.mk (charListLe_antisymm da db h1 h2)

theorem jsSort_sorted_strings (l : List String) :
    (jsSort jsStrLe l).Sorted (fun a b => jsStrLe a b = true) := by
  haveI : IsTotal String (fun a b => jsStrLe a b = true) := ⟨jsStrLe_total⟩
  haveI : IsTrans String (fun a b => jsStrLe a b = true) :=
    ⟨fun _ _ _ => jsStrLe_trans⟩
  rw [jsSort_eq_insertionSort]
  exact List.sorted_insertionSort (fun a b => jsStrLe a b = true) l

theorem jsSort_eq_of_perm {l1 l2 : List String} (h : l1.Perm l2) :
    jsSort jsStrLe l1 = jsSort jsStrLe l2 := by
  haveI : IsAntisymm String (fun a b => jsStrLe a b = true) :=
    ⟨fun _ _ => jsStrLe_antisymm⟩
  exact List.eq_of_perm_of_sorted
    ((jsSort_perm jsStrLe l1).trans (h.trans (jsSort_perm jsStrLe l2).symm))
    (jsSort_sorted_strings l1) (jsSort_sorted_strings l2)

/-! Injectivity of the comma join on comma-free words (C5). -/

theorem append_comma_cancel : ∀ (a b x y : List Char),
    ',' ∉ a → ',' ∉ b → a ++ ',' :: x = b ++ ',' :: y → a = b ∧ x = y := by
  intro a
  induction a with
  | nil =>
    intro b x y _ hb h
    cases b with
    | nil =>
      simp only [List.nil_append] at h
      exact ⟨rfl, (List.cons.inj h).2⟩
    | cons d b' =>
      simp only [List.nil_append, List.cons_append] at h
      have hd : ',' = d := (List.cons.inj h).1
      exact absurd (hd ▸ List.mem_cons_self d b') hb
  | cons c a' ih =>
    intro b x y ha hb h
    cases b with
    | nil =>
      simp only [List.cons_append, List.nil_append] at h
      have hc : c = ',' := (List.cons.inj h).1
      exact absurd (hc ▸ List.mem_cons_self c a') ha
    | cons d b' =>
      simp only [List.cons_append] at h
      obtain ⟨hcd, hrest⟩ := List.cons.inj h
      subst hcd
      obtain ⟨h1, h2⟩ := ih b' x y
        (fun hm => ha (List.mem_cons_of_mem _ hm))
        (fun hm => hb (List.mem_cons_of_mem _ hm)) hrest
      exact ⟨by rw [h1], h2⟩

theorem charsJoin_inj : ∀ (l1 l2 : List (List Char)),
    l1.length = l2.length →
    (∀ w ∈ l1, ',' ∉ w) → (∀ w ∈ l2, ',' ∉ w) →
    charsJoin l1 = charsJoin l2 → l1 = l2 := by
  intro l1
  induction l1 with
  | nil =>
    intro l2 hlen _ _ _
    cases l2 with
    | nil => rfl
    | cons b bs => simp at hlen
  | cons a as ih =>
    intro l2 hlen h1 h2 hj
    cases l2 with
    | nil => simp at hlen
    | cons b bs =>
      cases as with
      | nil =>
        cases bs with
        | nil =>
          simp only [charsJoin] at hj
          rw [hj]
        | cons b2 bs2 => simp at hlen
      | cons a2 as2 =>
        cases bs with
        | nil => simp at hlen
        | cons b2 bs2 =>
          simp only [charsJoin, List.append_assoc, List.singleton_append] at hj
          obtain ⟨hab, hrest⟩ := append_comma_cancel a b _ _
            (h1 a (List.mem_cons_self a _)) (h2 b (List.mem_cons_self b _)) hj
          have htail := ih (b2 :: bs2) (by simpa using hlen)
            (fun w hw => h1 w (List.mem_cons_of_mem _ hw))
            (fun w hw => h2 w (List.mem_cons_of_mem _ hw)) hrest
          rw [hab, htail]

theorem jsJoin_data (l : List String) :
    (jsJoin "," l).data = charsJoin (l.map String.data) := by
  induction l with
  | nil => rfl
  | cons a as ih =>
    cases as with
    | nil => rfl
    | cons a2 as2 =>
      show (a ++ "," ++ jsJoin "," (a2 :: as2)).data = _
      rw [String.data_append, String.data_append, ih]
      rfl

theorem jsJoin_comma_inj {l1 l2 : List String}
    (hlen : l1.length = l2.length)
    (h1 : ∀ w ∈ l1, ',' ∉ w.data) (h2 : ∀ w ∈ l2, ',' ∉ w.data)
    (hj : jsJoin "," l1 = jsJoin "," l2) : l1 = l2 := by
  have hdata : charsJoin (l1.map String.data) = charsJoin (l2.map String.data) := by
    rw [← jsJoin_data, ← jsJoin_data, hj]
  have hmaps : l1.map String.data = l2.map String.data :=
    charsJoin_inj _ _ (by simp [hlen])
      (by intro w hw
          obtain ⟨w0, hw0, rfl⟩ := List.mem_map.mp hw
          exact h1 w0 hw0)
      (by intro w hw
          obtain ⟨w0, hw0, rfl⟩ := List.mem_map.mp hw
          exact h2 w0 hw0)
      hdata
  have hinj : Function.Injective String.data := by
    intro x y hxy
    obtain ⟨dx⟩ := x
    obtain ⟨dy⟩ := y
    exact congrArg String.mk hxy
  exact List.map_injective_iff.mpr hinj hmaps

/-! The sorted join of actual words is a canonical form of the word
multiset (C5). -/

theorem filterMap_id_map_some (l : List String) :
    (l.map some).filterMap id = l := by
  induction l with
  | nil => rfl
  | cons a as ih => simp [ih]

theorem count_none_map_some (l : List String) :
    (l.map some).count none = 0 := by
  rw [List.count_eq_zero]
  intro hc
  obtain ⟨w, _, hw⟩ := List.mem_map.mp hc
  cases hw

theorem jsSortJoin_map_some (l : List String) :
    jsSortJoin (l.map some) = jsJoin "," (jsSort jsStrLe l) := by
  unfold jsSortJoin jsSortWords
  rw [filterMap_id_map_some, count_none_map_some]
  simp only [List.replicate_zero, List.append_nil, List.map_map]
  rw [show ((fun o : Option String => o.getD "") ∘ some) = id from rfl,
    List.map_id]

theorem jsSortJoin_eq_iff_perm {l1 l2 : List String}
    (hlen : l1.length = l2.length)
    (h1 : ∀ w ∈ l1, ',' ∉ w.data) (h2 : ∀ w ∈ l2, ',' ∉ w.data) :
    jsSortJoin (l1.map some) = jsSortJoin (l2.map some) ↔ l1.Perm l2 := by
  rw [jsSortJoin_map_some, jsSortJoin_map_some]
  constructor
  · intro hj
    have hs : jsSort jsStrLe l1 = jsSort jsStrLe l2 := by
      apply jsJoin_comma_inj _ _ _ hj
      · rw [(jsSort_perm jsStrLe l1).length_eq,
          (jsSort_perm jsStrLe l2).length_eq]
        exact hlen
      · intro w hw
        exact h1 w ((jsSort_perm jsStrLe l1).mem_iff.mp hw)
      · intro w hw
        exact h2 w ((jsSort_perm jsStrLe l2).mem_iff.mp hw)
    have h3 : (jsSort jsStrLe l1).Perm l2 := by
      rw [hs]
      exact jsSort_perm jsStrLe l2
    exact (jsSort_perm jsStrLe l1).symm.trans h3
  · intro hp
    rw [jsSort_eq_of_perm hp]

/-- C5: with a selection resolving to 4 distinct comma-free words and
a well-formed mistake log, `submit` rejects with the "already tried"
signal — leaving the pair (state, signal) exactly `(s,
alreadyTriedReject)`, so the whole session state is unchanged and the
guess is recorded nowhere — precisely when some prior `mistakeLog`
entry carries the same word set (order-independently).  Entries that
exist only in `guessHistory` are never consulted: the equivalence
refers to `mistakesLog` alone. -/
theorem C5_duplicate_guess_rejection (s : SessionState) (ts : Nat)
    (keys : List Nat) (ws : List String)
    (hl : s.locked = false)
    (hsel4 : s.selection.length = 4)
    (hws : wordsOfSelection s = ws.map some)
    (hnd : ws.Nodup)
    (hcomma : ∀ w ∈ ws, ',' ∉ w.data)
    (hlog : ∀ e ∈ s.mistakesLog, ∃ ews : List String,
      e.words = ews.map some ∧ ews.length = 4 ∧ ews.Nodup
        ∧ ∀ w ∈ ews, ',' ∉ w.data) :
    (submit s ts keys = (s, SubmitResult.alreadyTriedReject))
      ↔ ∃ e ∈ s.mistakesLog, ∀ w : String, (w ∈ ws ↔ some w ∈ e.words) := by
  have hws4 : ws.length = 4 := by
    have h1 : (wordsOfSelection s).length = s.selection.length :=
      List.length_map _ _
    rw [hws, List.length_map] at h1
    omega
  have hany : ((s.mistakesLog.any
      (fun e => jsSortJoin e.words == jsSortJoin (wordsOfSelection s))) = true)
      ↔ ∃ e ∈ s.mistakesLog, ∀ w : String, (w ∈ ws ↔ some w ∈ e.words) := by
    rw [List.any_eq_true]
    constructor
    · rintro ⟨e, he, hbeq⟩
      obtain ⟨ews, hews, hlen4, hewnd, hewc⟩ := hlog e he
      have hjoin : jsSortJoin e.words = jsSortJoin (wordsOfSelection s) :=
        beq_iff_eq.mp hbeq
      rw [hews, hws] at hjoin
      have hperm : ews.Perm ws :=
        (jsSortJoin_eq_iff_perm (by omega) hewc hcomma).mp hjoin
      refine ⟨e, he, fun w => ?_⟩
      rw [hews]
      simp only [List.mem_map, Option.some.injEq]
      constructor
      · intro hw
        exact ⟨w, hperm.mem_iff.mpr hw, rfl⟩
      · rintro ⟨a, ha, rfl⟩
        exact hperm.mem_iff.mp ha
    · rintro ⟨e, he, hset⟩
      obtain ⟨ews, hews, hlen4, hewnd, hewc⟩ := hlog e he
      have hset2 : ∀ w, w ∈ ews ↔ w ∈ ws := by
        intro w
        have hw := hset w
        rw [hews] at hw
        simp only [List.mem_map, Option.some.injEq] at hw
        constructor
        · intro hwe
          exact hw.mpr ⟨w, hwe, rfl⟩
        · intro hwsmem
          obtain ⟨a, ha, haw⟩ := hw.mp hwsmem
          rw [← haw]
          exact ha
      have hperm : ews.Perm ws :=
        (List.perm_ext_iff_of_nodup hewnd hnd).mpr hset2
      refine ⟨e, he, ?_⟩
      rw [beq_iff_eq, hews, hws]
      exact (jsSortJoin_eq_iff_perm (by omega) hewc hcomma).mpr hperm
  have hlf : ¬s.locked = true := by simp [hl]
  constructor
  · intro hsub
    apply hany.mp
    by_contra hdupn
    have hdup : (s.mistakesLog.any
        (fun e => jsSortJoin e.words == jsSortJoin (wordsOfSelection s)))
        = false := by
      cases hv : (s.mistakesLog.any
        (fun e => jsSortJoin e.words == jsSortJoin (wordsOfSelection s)))
      · rfl
      · exact absurd hv hdupn
    have hsnd := congrArg Prod.snd hsub
    rcases hm : findMatch s.data.groups (wordsOfSelection s) with _ | mg
    · by_cases hmax : 3 ≤ s.mistakes
      · simp [submit, hlf, hsel4, hdup, hm, hmax, MAX_MISTAKES,
          revealAllAndLock] at hsnd
      · simp [submit, hlf, hsel4, hdup, hm, hmax, MAX_MISTAKES,
          revealAllAndLock] at hsnd
    · simp [submit, hlf, hsel4, hdup, hm, MAX_MISTAKES] at hsnd
  · intro hex
    have hdup := hany.mpr hex
    simp [submit, hlf, hsel4, hdup]

/-- Witness for C5: with ROBIN SAW MARS VENUS in the mistake log,
re-selecting the same four words in another order is rejected with the
state unchanged. -/
theorem C5_witness :
    submit c5State 2 [] = (c5State, SubmitResult.alreadyTriedReject) :=
  (C5_duplicate_guess_rejection c5State 2 [] ["ROBIN", "MARS", "VENUS", "SAW"]
    rfl rfl rfl (by decide) (by decide)
    (by intro e he
        simp only [c5State] at he
        rw [List.mem_singleton] at he
        subst he
        exact ⟨["ROBIN", "SAW", "MARS", "VENUS"], rfl, rfl, by decide, by decide⟩)).mpr
    ⟨⟨1, [some "ROBIN", some "SAW", some "MARS", some "VENUS"]⟩,
      List.mem_singleton.mpr rfl,
      by intro w
         simp only [List.mem_map, List.mem_cons, List.not_mem_nil, or_false,
           Option.some.injEq]
         constructor
         · rintro (rfl | rfl | rfl | rfl) <;> simp
         · rintro (rfl | rfl | rfl | rfl) <;> simp⟩

/-! The restore path never throws and backfills `failed` (C7). -/

/-- C7: restoring a persisted snapshot is exception-free for every
stored value.  Nothing stored and unparseable text leave the session
untouched; a parsed `null` (the only value whose first property read
throws a TypeError) is caught before any field was assigned, also
leaving the session untouched; every other parsed value yields the
per-field overlay `restoreOverlay`, in which each field individually
falls back to its default when it has the wrong shape; and whenever
the snapshot lacks a `failed` field, the restored `failed` is exactly
`locked && mistakes >= 4` over the restored values. -/
theorem C7_restore_never_throws_and_failed_backfill :
    (∀ st : RawSession, restoreIfAny st none = st)
      ∧ (∀ st : RawSession, restoreIfAny st (some none) = st)
      ∧ (∀ st : RawSession,
          restoreIfAny st (some (some JValue.null)) = st
            ∧ restoreIfAny st (some (some JValue.undefinedV)) = st)
      ∧ (∀ (st : RawSession) (p : JValue),
          p ≠ JValue.null → p ≠ JValue.undefinedV →
          restoreIfAny st (some (some p)) = restoreOverlay st p)
      ∧ (∀ (st : RawSession) (p : JValue),
          jsFieldGetD p "failed" = JValue.undefinedV →
          (restoreOverlay st p).failed
            = ((restoreOverlay st p).locked
                && decide ((restoreOverlay st p).mistakes ≥ 4))) := by
  refine ⟨fun st => rfl, fun st => rfl, fun st => ⟨rfl, rfl⟩, ?_, ?_⟩
  · intro st p h1 h2
    cases p with
    | null => exact absurd rfl h1
    | undefinedV => exact absurd rfl h2
    | bool b => rfl
    | num q => rfl
    | str s => rfl
    | arr xs => rfl
    | obj fields => rfl
  · intro st p hmiss
    unfold restoreOverlay
    rw [hmiss]
    cases hlk : jsTruthy (jsFieldGetD p "locked") <;> simp [hlk, jsTruthy]

/-- Witness for C7: a snapshot object carrying only `locked: true` and
`mistakes: 4` (no `failed` field) restores without an exception to the
overlay, whose `failed` equals `locked && mistakes >= 4 = true`. -/
theorem C7_witness :
    restoreIfAny rawDefault (some (some (JValue.obj
        [("locked", JValue.bool true), ("mistakes", JValue.num 4)])))
      = restoreOverlay rawDefault (JValue.obj
        [("locked", JValue.bool true), ("mistakes", JValue.num 4)])
      ∧ (restoreOverlay rawDefault (JValue.obj
          [("locked", JValue.bool true), ("mistakes", JValue.num 4)])).failed
        = ((restoreOverlay rawDefault (JValue.obj
            [("locked", JValue.bool true), ("mistakes", JValue.num 4)])).locked
          && decide ((restoreOverlay rawDefault (JValue.obj
            [("locked", JValue.bool true),
              ("mistakes", JValue.num 4)])).mistakes ≥ 4)) :=
  ⟨C7_restore_never_throws_and_failed_backfill.2.2.2.1 rawDefault
      (JValue.obj [("locked", JValue.bool true), ("mistakes", JValue.num 4)])
      (fun h => nomatch h) (fun h => nomatch h),
    C7_restore_never_throws_and_failed_backfill.2.2.2.2 rawDefault
      (JValue.obj [("locked", JValue.bool true), ("mistakes", JValue.num 4)])
      rfl⟩

end Connections
